import Mathlib

/-!
Verification development for the thaimaturgy text-adventure engine.

The Go source is embedded shallowly: Go `int` becomes `Int` (with Go integer
division `/`, which truncates toward zero, rendered as `Int.tdiv`), Go slices
become `List`, Go strings become `String`, fallible functions return
`Option`/`Except`, and the process-global random generator becomes an explicit
tape `Nat → Nat` together with a position; the i-th call of `rand.Intn n`
reads `tape i % n`.  Timestamps, float64 fields not read by the modelled
operations, and rendered log text that no property depends on are dropped.
-/

/-! ## Domain: abilities, modifier, skills (src/unnamed/part_002) -/

inductive Ability where
  | STR | DEX | CON | INT | WIS | CHA
deriving DecidableEq

structure AbilityScores where
  STR : Int
  DEX : Int
  CON : Int
  INT : Int
  WIS : Int
  CHA : Int
deriving DecidableEq

def AbilityScores.get (a : AbilityScores) : Ability → Int
  | .STR => a.STR
  | .DEX => a.DEX
  | .CON => a.CON
  | .INT => a.INT
  | .WIS => a.WIS
  | .CHA => a.CHA

/-- Go: `func Modifier(score int) int { return (score - 10) / 2 }`.
Go `/` on `int` truncates toward zero, hence `Int.tdiv`. -/
def Modifier (score : Int) : Int := Int.tdiv (score - 10) 2

structure Skill where
  name : String
  ability : Ability
  proficient : Bool
  expert : Bool
deriving DecidableEq

structure InventoryItem where
  name : String
  quantity : Int
  equipped : Bool
deriving DecidableEq

structure Character where
  abilities : AbilityScores
  maxHP : Int
  currentHP : Int
  tempHP : Int
  proficiencyBonus : Int
  skills : List Skill
  inventory : List InventoryItem
  conditions : List String
  gold : Int
  xp : Int
deriving DecidableEq

/-- The loop body of `Character.SkillBonus`: first skill whose name matches
wins; a miss at the end of the list yields 0. -/
def skillBonusList (abilities : AbilityScores) (pb : Int) :
    List Skill → String → Int
  | [], _ => 0
  | sk :: rest, n =>
    if sk.name = n then
      let bonus := Modifier (abilities.get sk.ability)
      if sk.expert then bonus + pb * 2
      else if sk.proficient then bonus + pb
      else bonus
    else skillBonusList abilities pb rest n

def Character.SkillBonus (c : Character) (skillName : String) : Int :=
  skillBonusList c.abilities c.proficiencyBonus c.skills skillName

/-- First skill in the list with the given name, if any (reference lookup used
to state theorems about `SkillBonus`). -/
def findSkill : List Skill → String → Option Skill
  | [], _ => none
  | sk :: rest, n => if sk.name = n then some sk else findSkill rest n

/-- Go `Character.AddItem` on the inventory slice: merge into the first stack
with the same name, else append at the end. -/
def addItemToInv : List InventoryItem → InventoryItem → List InventoryItem
  | [], item => [item]
  | existing :: rest, item =>
    if existing.name = item.name then
      { existing with quantity := existing.quantity + item.quantity } :: rest
    else existing :: addItemToInv rest item

def Character.AddItem (c : Character) (item : InventoryItem) : Character :=
  { c with inventory := addItemToInv c.inventory item }

/-- Go `Character.RemoveItem` on the inventory slice: at the first stack with
the given name, delete the stack when its quantity is `≤` the requested one,
else decrement; `none` when no stack matches. -/
def removeItemFromInv : List InventoryItem → String → Int →
    Option (List InventoryItem)
  | [], _, _ => none
  | item :: rest, nm, quantity =>
    if item.name = nm then
      some (if item.quantity ≤ quantity then rest
            else { item with quantity := item.quantity - quantity } :: rest)
    else
      match removeItemFromInv rest nm quantity with
      | some rest2 => some (item :: rest2)
      | none => none

/-- Returns the updated character and the Go boolean result. -/
def Character.RemoveItem (c : Character) (nm : String) (quantity : Int) :
    Character × Bool :=
  match removeItemFromInv c.inventory nm quantity with
  | some inv2 => ({ c with inventory := inv2 }, true)
  | none => (c, false)

def Character.AddCondition (c : Character) (cond : String) : Character :=
  if c.conditions.contains cond then c
  else { c with conditions := c.conditions ++ [cond] }

def Character.RemoveCondition (c : Character) (cond : String) : Character :=
  { c with conditions := c.conditions.eraseP (fun x => x = cond) }

/-- Go `Character.TakeDamage`, preserving the control flow: when temp HP is
positive it absorbs first (early return when it covers the whole damage,
without touching current HP); the remainder hits current HP, floored at 0. -/
def Character.TakeDamage (c : Character) (damage : Int) : Character :=
  if 0 < c.tempHP then
    if damage ≤ c.tempHP then { c with tempHP := c.tempHP - damage }
    else
      let rem := damage - c.tempHP
      let cur := c.currentHP - rem
      { c with tempHP := 0, currentHP := if cur < 0 then 0 else cur }
  else
    let cur := c.currentHP - damage
    { c with currentHP := if cur < 0 then 0 else cur }

/-- Go `Character.Heal`: add, cap at max HP. -/
def Character.Heal (c : Character) (amount : Int) : Character :=
  let cur := c.currentHP + amount
  { c with currentHP := if c.maxHP < cur then c.maxHP else cur }

/-! ## Dice engine (src/internal/engine/dice.go) -/

structure DiceRoll where
  notationStr : String
  numDice : Int
  diceSides : Int
  modifier : Int
  rolls : List Int
  total : Int
deriving DecidableEq

/-- Go `strings.TrimSpace` (leading and trailing whitespace removed). -/
def trimList (cs : List Char) : List Char :=
  ((cs.dropWhile Char.isWhitespace).reverse.dropWhile Char.isWhitespace).reverse

/-- Numeric value of a digit string, as `strconv.Atoi` computes it on an
all-digit input (the embedding is unbounded; inputs large enough to overflow
Go Atoi are rejected by the subsequent range checks either way). -/
def digitsToNat (ds : List Char) : Nat :=
  ds.foldl (fun n c => n * 10 + (c.toNat - ('0').toNat)) 0

/-- The regex `^(\d+)?d(\d+)([+-]\d+)?$` of `ParseDice`, as a deterministic
matcher: leading digits (possibly none), the letter d, at least one digit,
then optionally a sign followed only by digits.  Because a digit never
matches the literal d and a sign is not a digit, the maximal-munch reading
below recognises exactly the regex language. -/
def matchDice (cs : List Char) :
    Option (List Char × List Char × Option (Char × List Char)) :=
  let cnt := cs.takeWhile Char.isDigit
  match cs.dropWhile Char.isDigit with
  | 'd' :: rest =>
    let sds := rest.takeWhile Char.isDigit
    if sds.isEmpty then none
    else
      match rest.dropWhile Char.isDigit with
      | [] => some (cnt, sds, none)
      | c :: rest2 =>
        if c = '+' ∨ c = '-' then
          if rest2.isEmpty then none
          else if rest2.all Char.isDigit then some (cnt, sds, some (c, rest2))
          else none
        else none
  | _ => none

/-- Go `ParseDice`: lowercase, trim, match the regex, read the three numeric
groups (count defaulting to 1), then range-check count and sides. -/
def ParseDice (s : String) : Except String DiceRoll :=
  let cs := (trimList s.toList).map Char.toLower
  match matchDice cs with
  | none =>
    .error ("invalid dice notation: " ++ String.mk cs ++
      " (expected format: NdM or NdM+K)")
  | some (cnt, sds, mseg) =>
    let numDice : Int := if cnt.isEmpty then 1 else (digitsToNat cnt : Int)
    let diceSides : Int := (digitsToNat sds : Int)
    let modifier : Int :=
      match mseg with
      | none => 0
      | some (sign, mds) =>
        if sign = '-' then -(digitsToNat mds : Int) else (digitsToNat mds : Int)
    if numDice < 1 ∨ 100 < numDice then
      .error "number of dice must be between 1 and 100"
    else if diceSides < 1 ∨ 1000 < diceSides then
      .error "dice sides must be between 1 and 1000"
    else
      .ok { notationStr := String.mk cs, numDice := numDice,
            diceSides := diceSides, modifier := modifier,
            rolls := [], total := 0 }

/-- The shared drawing loop of `DiceRoll.Roll` and `Roller.Roll`: draw
`numDice` values, the i-th being `rand.Intn(diceSides) + 1` read from the
tape at `pos + i`; store them (overwriting any previous results) and set
`total` to their sum plus the modifier. -/
def rollWith (tape : Nat → Nat) (pos : Nat) (dr : DiceRoll) : DiceRoll :=
  let rolls := (List.range dr.numDice.toNat).map
    (fun i => (Int.ofNat (tape (pos + i) % dr.diceSides.toNat)) + 1)
  { dr with rolls := rolls, total := rolls.sum + dr.modifier }

def DiceRoll.IsCriticalHit (dr : DiceRoll) : Bool :=
  dr.numDice == 1 && dr.diceSides == 20 &&
    (match dr.rolls with | r :: _ => r == 20 | [] => false)

def DiceRoll.IsCriticalFail (dr : DiceRoll) : Bool :=
  dr.numDice == 1 && dr.diceSides == 20 &&
    (match dr.rolls with | r :: _ => r == 1 | [] => false)

/-- Go `DiceRoll.String()`: canonical notation rendering. -/
def DiceRoll.render (dr : DiceRoll) : String :=
  toString dr.numDice ++ "d" ++ toString dr.diceSides ++
    (if 0 < dr.modifier then "+" ++ toString dr.modifier
     else if dr.modifier < 0 then toString dr.modifier
     else "")

/-- Go `DiceRoll.ResultString()`. -/
def DiceRoll.resultString (dr : DiceRoll) : String :=
  let rollsStr := String.intercalate "+" (dr.rolls.map toString)
  if dr.modifier ≠ 0 then
    let modStr := if 0 ≤ dr.modifier then "+" ++ toString dr.modifier
                  else toString dr.modifier
    "[" ++ rollsStr ++ "]" ++ modStr ++ " = " ++ toString dr.total
  else
    "[" ++ rollsStr ++ "] = " ++ toString dr.total

/-- Go `RollDice`: parse then roll (the tape/position stand for the global
generator state at call time). -/
def RollDice (tape : Nat → Nat) (pos : Nat) (s : String) :
    Except String DiceRoll :=
  match ParseDice s with
  | .error e => .error e
  | .ok dr => .ok (rollWith tape pos dr)

/-- The minimum-index loop of `RollAbilityScore`: strict comparison, so on
ties the first minimal entry (in roll order) is kept as the index. -/
def goMinIdx (rolls : List Int) : Nat :=
  (List.range rolls.length).foldl
    (fun minIdx i => if rolls.getD i 0 < rolls.getD minIdx 0 then i else minIdx)
    0

/-- Go `RollAbilityScore`: four d6 draws, drop the single die at the
minimum index, keep the other three in order, sum them. -/
def RollAbilityScore (tape : Nat → Nat) : DiceRoll :=
  let rolls : List Int := (List.range 4).map
    (fun i => (Int.ofNat (tape i % 6)) + 1)
  let minIdx := goMinIdx rolls
  let kept := (rolls.enum.filter (fun p => p.1 ≠ minIdx)).map (fun p => p.2)
  { notationStr := "4d6 drop lowest", numDice := 4, diceSides := 6,
    modifier := 0, rolls := kept, total := kept.sum }

/-! ## JSON argument values and tool call types

`internal/types` and `internal/providers` are not under `src/`.
Modelled from the spec: a tool invocation carries an opaque id, a tool name
and a JSON argument payload; an outcome carries the id and a success content
string XOR an error string (spec section 3, "ToolInvocation"/"ToolOutcome",
and section 6: argument types are strings, integers that may arrive as
floating point and must be truncated, booleans, and string arrays).  A JSON
number is represented by the integer Go obtains from `int(float64value)`
(truncation toward zero), the only way the handlers consume numbers; a
payload that does not unmarshal into a JSON object is `none`. -/

inductive JValue where
  | jnull : JValue
  | jbool : Bool → JValue
  | jnum : Int → JValue
  | jstr : String → JValue
  | jarr : List JValue → JValue

def lookupArg : List (String × JValue) → String → Option JValue
  | [], _ => none
  | (k, v) :: rest, key => if k = key then some v else lookupArg rest key

/-- Go `args[k].(string)`. -/
def argStr (args : List (String × JValue)) (k : String) : Option String :=
  match lookupArg args k with
  | some (.jstr s) => some s
  | _ => none

/-- Go `args[k].(float64)` followed by `int(...)`. -/
def argNum (args : List (String × JValue)) (k : String) : Option Int :=
  match lookupArg args k with
  | some (.jnum n) => some n
  | _ => none

/-- Go `args[k].(bool)`. -/
def argBool (args : List (String × JValue)) (k : String) : Option Bool :=
  match lookupArg args k with
  | some (.jbool b) => some b
  | _ => none

/-- Go `v, _ := args[k].(string)`: failed assertion leaves the zero value. -/
def argStrD (args : List (String × JValue)) (k : String) : String :=
  (argStr args k).getD ""

structure ToolCall where
  id : String
  name : String
  args : Option (List (String × JValue))

structure ToolResult where
  toolCallID : String
  content : String
  error : String
deriving DecidableEq

def errResult (id msg : String) : ToolResult :=
  { toolCallID := id, content := "", error := msg }

def okResult (id msg : String) : ToolResult :=
  { toolCallID := id, content := msg, error := "" }

/-! ## World state, events, conversation, session
(src/unnamed/part_001, src/internal/domain/event.go; timestamps and the
unused setting/NPC/flag/variable fields are dropped) -/

structure Location where
  name : String
  description : String
  exits : List String
deriving DecidableEq

structure Quest where
  id : String
  name : String
  description : String
  status : String
deriving DecidableEq

structure WorldState where
  currentLocation : Location
  quests : List Quest
deriving DecidableEq

def WorldState.SetLocation (w : WorldState) (loc : Location) : WorldState :=
  { w with currentLocation := loc }

def WorldState.AddQuest (w : WorldState) (q : Quest) : WorldState :=
  { w with quests := w.quests ++ [q] }

/-- First quest with the given id gets the new status; `none` when absent. -/
def updateQuestList : List Quest → String → String → Option (List Quest)
  | [], _, _ => none
  | q :: rest, qid, status =>
    if q.id = qid then some ({ q with status := status } :: rest)
    else
      match updateQuestList rest qid status with
      | some rest2 => some (q :: rest2)
      | none => none

/-- Events keep the discriminated kind and the structured payload; the
rendered message text of event.go is not modelled. -/
inductive Event where
  | diceRoll (notationStr : String) (rolls : List Int) (total modifier : Int)
      (reason : String)
  | hpChange (delta : Int) (reason : String) (currentHP maxHP : Int)
  | itemAdd (item : String) (quantity : Int)
  | itemRemove (item : String) (quantity : Int)
  | conditionAdd (cond : String)
  | conditionRemove (cond : String)
  | questAdd (nm : String)
  | questUpdate (nm status : String)
  | locationChange (nm : String)
  | goldChange (delta : Int) (reason : String) (total : Int)
  | xpGain (amount total : Int)
  | skillCheck (skill : String) (dc roll bonus : Int) (success : Bool)
  | savingThrow (ability : String) (dc roll bonus : Int) (success : Bool)
  | error (msg : String)
deriving DecidableEq

inductive Role where
  | user | assistant | system | tool
deriving DecidableEq

structure Msg where
  role : Role
  content : String
deriving DecidableEq

/-- Bounded conversation log: append, then drop from the front when over
the cap (Go `Conversation.Add`; `MaxSize` is at least 1 wherever the code
constructs one). -/
structure Conversation where
  messages : List Msg
  maxSize : Int
deriving DecidableEq

def Conversation.add (c : Conversation) (m : Msg) : Conversation :=
  let msgs := c.messages ++ [m]
  if c.maxSize < (msgs.length : Int) then
    { c with messages := msgs.drop (msgs.length - c.maxSize.toNat) }
  else { c with messages := msgs }

/-- Bounded event log, same drop-oldest policy (Go `EventLog.Add`). -/
structure EventLog where
  events : List Event
  maxSize : Int
deriving DecidableEq

def EventLog.add (el : EventLog) (e : Event) : EventLog :=
  let evs := el.events ++ [e]
  if el.maxSize < (evs.length : Int) then
    { el with events := evs.drop (evs.length - el.maxSize.toNat) }
  else { el with events := evs }

/-- `GameState` and `GameSession` flattened (config and timestamps dropped);
the global dice generator is the tape/position pair. -/
structure GameSession where
  character : Character
  world : WorldState
  conversation : Conversation
  eventLog : EventLog
  isModified : Bool
  rngTape : Nat → Nat
  rngPos : Nat

def GameSession.MarkModified (s : GameSession) : GameSession :=
  { s with isModified := true }

def GameSession.addEvent (s : GameSession) (e : Event) : GameSession :=
  { s with eventLog := s.eventLog.add e }

/-! ## Tool router handlers (src/internal/engine/tools.go) -/

/-- Go `RollD20` = `Roll(1, 20, 0)` at the current generator state. -/
def RollD20At (tape : Nat → Nat) (pos : Nat) : DiceRoll :=
  rollWith tape pos
    { notationStr := "1d20", numDice := 1, diceSides := 20, modifier := 0,
      rolls := [], total := 0 }

def rollDiceTool (s : GameSession) (id : String)
    (args : List (String × JValue)) : GameSession × ToolResult :=
  match argStr args "notation" with
  | none => (s, errResult id "Missing or invalid \x27notation\x27 parameter")
  | some nota =>
    let reason := argStrD args "reason"
    match ParseDice nota with
    | .error e => (s, errResult id e)
    | .ok dr =>
      let roll := rollWith s.rngTape s.rngPos dr
      let s2 := { s with rngPos := s.rngPos + dr.numDice.toNat }
      let message := "Rolled " ++ roll.render ++ ": " ++ roll.resultString ++
        (if roll.IsCriticalHit then " [CRITICAL HIT!]"
         else if roll.IsCriticalFail then " [CRITICAL FAIL!]" else "")
      let s3 := s2.addEvent
        (.diceRoll roll.notationStr roll.rolls roll.total roll.modifier reason)
      (s3, okResult id message)

def updateHPTool (s : GameSession) (id : String)
    (args : List (String × JValue)) : GameSession × ToolResult :=
  match argNum args "delta" with
  | none => (s, errResult id "Missing or invalid \x27delta\x27 parameter")
  | some delta =>
    let reason0 := argStrD args "reason"
    let reason := if reason0 = "" then "unknown" else reason0
    let char := if delta < 0 then s.character.TakeDamage (-delta)
                else s.character.Heal delta
    let s2 := ({ s with character := char }).MarkModified
    let s3 := s2.addEvent (.hpChange delta reason char.currentHP char.maxHP)
    (s3, okResult id ("HP changed by " ++ toString delta ++ " (" ++ reason ++
      "). Current: " ++ toString char.currentHP ++ "/" ++ toString char.maxHP))

def addItemTool (s : GameSession) (id : String)
    (args : List (String × JValue)) : GameSession × ToolResult :=
  match argStr args "item" with
  | none => (s, errResult id "Missing or invalid \x27item\x27 parameter")
  | some item =>
    let quantity := match argNum args "quantity" with
      | some q => q
      | none => 1
    let char := s.character.AddItem
      { name := item, quantity := quantity, equipped := false }
    let s2 := ({ s with character := char }).MarkModified
    let s3 := s2.addEvent (.itemAdd item quantity)
    (s3, okResult id ("Added " ++ toString quantity ++ "x " ++ item ++
      " to inventory"))

def removeItemTool (s : GameSession) (id : String)
    (args : List (String × JValue)) : GameSession × ToolResult :=
  match argStr args "item" with
  | none => (s, errResult id "Missing or invalid \x27item\x27 parameter")
  | some item =>
    let quantity := match argNum args "quantity" with
      | some q => q
      | none => 1
    match s.character.RemoveItem item quantity with
    | (_, false) =>
      (s, errResult id ("Item \x27" ++ item ++ "\x27 not found in inventory"))
    | (char, true) =>
      let s2 := ({ s with character := char }).MarkModified
      let s3 := s2.addEvent (.itemRemove item quantity)
      (s3, okResult id ("Removed " ++ toString quantity ++ "x " ++ item ++
        " from inventory"))

def setConditionTool (s : GameSession) (id : String)
    (args : List (String × JValue)) : GameSession × ToolResult :=
  match argStr args "condition" with
  | none => (s, errResult id "Missing or invalid \x27condition\x27 parameter")
  | some condName =>
    match argBool args "add" with
    | none => (s, errResult id "Missing or invalid \x27add\x27 parameter")
    | some add =>
      let s2 :=
        if add then
          (({ s with character := s.character.AddCondition condName })).addEvent
            (.conditionAdd condName)
        else
          (({ s with
              character := s.character.RemoveCondition condName })).addEvent
            (.conditionRemove condName)
      let s3 := s2.MarkModified
      let action := if add then "added" else "removed"
      (s3, okResult id ("Condition \x27" ++ condName ++ "\x27 " ++ action))

def updateGoldTool (s : GameSession) (id : String)
    (args : List (String × JValue)) : GameSession × ToolResult :=
  match argNum args "delta" with
  | none => (s, errResult id "Missing or invalid \x27delta\x27 parameter")
  | some delta =>
    let reason0 := argStrD args "reason"
    let reason := if reason0 = "" then "transaction" else reason0
    let gold0 := s.character.gold + delta
    let gold := if gold0 < 0 then 0 else gold0
    let s2 := ({ s with character := { s.character with gold := gold } }).MarkModified
    let s3 := s2.addEvent (.goldChange delta reason gold)
    (s3, okResult id ("Gold changed by " ++ toString delta ++ " (" ++ reason ++
      "). Total: " ++ toString gold))

def awardXPTool (s : GameSession) (id : String)
    (args : List (String × JValue)) : GameSession × ToolResult :=
  match argNum args "amount" with
  | none => (s, errResult id "Missing or invalid \x27amount\x27 parameter")
  | some amount =>
    let xp := s.character.xp + amount
    let s2 := ({ s with character := { s.character with xp := xp } }).MarkModified
    let s3 := s2.addEvent (.xpGain amount xp)
    (s3, okResult id ("Awarded " ++ toString amount ++ " XP. Total: " ++
      toString xp))

/-- The exits-decoding loop of `setLocation`: keep the string elements of the
`exits` array argument; a missing or non-array argument yields the empty
(Go nil) slice. -/
def decodeExits (args : List (String × JValue)) : List String :=
  match lookupArg args "exits" with
  | some (.jarr xs) =>
    xs.filterMap (fun v => match v with | .jstr e => some e | _ => none)
  | _ => []

def setLocationTool (s : GameSession) (id : String)
    (args : List (String × JValue)) : GameSession × ToolResult :=
  match argStr args "name" with
  | none => (s, errResult id "Missing or invalid \x27name\x27 parameter")
  | some nm =>
    let description := argStrD args "description"
    let loc : Location := { name := nm, description := description,
                            exits := decodeExits args }
    let s2 := ({ s with world := s.world.SetLocation loc }).MarkModified
    let s3 := s2.addEvent (.locationChange nm)
    (s3, okResult id ("Moved to: " ++ nm))

def addQuestTool (s : GameSession) (id : String)
    (args : List (String × JValue)) : GameSession × ToolResult :=
  match argStr args "id" with
  | none => (s, errResult id "Missing or invalid \x27id\x27 parameter")
  | some questID =>
    match argStr args "name" with
    | none => (s, errResult id "Missing or invalid \x27name\x27 parameter")
    | some nm =>
      let status0 := argStrD args "status"
      let status := if status0 = "" then "active" else status0
      let description := argStrD args "description"
      let s2 :=
        match updateQuestList s.world.quests questID status with
        | some quests2 =>
          ({ s with world := { s.world with quests := quests2 } }).addEvent
            (.questUpdate nm status)
        | none =>
          let quest : Quest := { id := questID, name := nm,
                                 description := description, status := status }
          ({ s with world := s.world.AddQuest quest }).addEvent (.questAdd nm)
      let s3 := s2.MarkModified
      (s3, okResult id ("Quest \x27" ++ nm ++ "\x27 set to \x27" ++ status ++
        "\x27"))

def skillCheckTool (s : GameSession) (id : String)
    (args : List (String × JValue)) : GameSession × ToolResult :=
  match argStr args "skill" with
  | none => (s, errResult id "Missing or invalid \x27skill\x27 parameter")
  | some skill =>
    match argNum args "dc" with
    | none => (s, errResult id "Missing or invalid \x27dc\x27 parameter")
    | some dc =>
      let bonus := s.character.SkillBonus skill
      let roll := RollD20At s.rngTape s.rngPos
      let s2 := { s with rngPos := s.rngPos + 1 }
      let r0 := roll.rolls.headD 0
      let total := roll.total + bonus
      let success := decide (dc ≤ total)
      let s3 := s2.addEvent (.skillCheck skill dc r0 bonus success)
      let result := if success then "SUCCESS" else "FAILED"
      let critMsg := if roll.IsCriticalHit then " [NATURAL 20!]"
                     else if roll.IsCriticalFail then " [NATURAL 1!]" else ""
      (s3, okResult id (skill ++ " check (DC " ++ toString dc ++ "): " ++
        toString r0 ++ " + " ++ toString bonus ++ " = " ++ toString total ++
        " [" ++ result ++ "]" ++ critMsg))

/-- The `switch strings.ToUpper(abilityStr)` of `savingThrow`. -/
def abilityOfString (str : String) : Option Ability :=
  if str = "STR" then some .STR
  else if str = "DEX" then some .DEX
  else if str = "CON" then some .CON
  else if str = "INT" then some .INT
  else if str = "WIS" then some .WIS
  else if str = "CHA" then some .CHA
  else none

def toUpperStr (s : String) : String := String.mk (s.toList.map Char.toUpper)

def savingThrowTool (s : GameSession) (id : String)
    (args : List (String × JValue)) : GameSession × ToolResult :=
  match argStr args "ability" with
  | none => (s, errResult id "Missing or invalid \x27ability\x27 parameter")
  | some abilityStr0 =>
    match argNum args "dc" with
    | none => (s, errResult id "Missing or invalid \x27dc\x27 parameter")
    | some dc =>
      let abilityStr := toUpperStr abilityStr0
      match abilityOfString abilityStr with
      | none => (s, errResult id ("Invalid ability: " ++ abilityStr))
      | some ability =>
        let bonus := Modifier (s.character.abilities.get ability)
        let roll := RollD20At s.rngTape s.rngPos
        let s2 := { s with rngPos := s.rngPos + 1 }
        let r0 := roll.rolls.headD 0
        let total := roll.total + bonus
        let success := decide (dc ≤ total)
        let s3 := s2.addEvent (.savingThrow abilityStr dc r0 bonus success)
        let result := if success then "SUCCESS" else "FAILED"
        let critMsg := if roll.IsCriticalHit then " [NATURAL 20!]"
                       else if roll.IsCriticalFail then " [NATURAL 1!]" else ""
        (s3, okResult id (abilityStr ++ " save (DC " ++ toString dc ++ "): " ++
          toString r0 ++ " + " ++ toString bonus ++ " = " ++ toString total ++
          " [" ++ result ++ "]" ++ critMsg))

/-- Go `ToolRouter.Execute`: unmarshal the arguments (a payload that is not
a JSON object yields the parse-failure outcome), then dispatch by name. -/
def Execute (s : GameSession) (call : ToolCall) : GameSession × ToolResult :=
  match call.args with
  | none => (s, errResult call.id "Failed to parse arguments")
  | some args =>
    match call.name with
    | "roll_dice" => rollDiceTool s call.id args
    | "update_hp" => updateHPTool s call.id args
    | "add_item" => addItemTool s call.id args
    | "remove_item" => removeItemTool s call.id args
    | "set_condition" => setConditionTool s call.id args
    | "update_gold" => updateGoldTool s call.id args
    | "award_xp" => awardXPTool s call.id args
    | "set_location" => setLocationTool s call.id args
    | "add_quest" => addQuestTool s call.id args
    | "skill_check" => skillCheckTool s call.id args
    | "saving_throw" => savingThrowTool s call.id args
    | other => (s, errResult call.id ("Unknown tool: " ++ other))

/-! ## Conversation orchestrator (src/internal/engine/orchestrator.go)

The `Provider` contract is not under `src/`.  Modelled from the spec
(section 6): a backend call either fails with a transport error or returns
text content, zero or more tool-call requests, token usage counts, and a
latency.  The backend behaviour over one turn is modelled as a function of
the round index; the request payload (message history, tool catalog, model
parameters) that the Go code rebuilds each round does not influence the
modelled session mutations and is not tracked.  The `provider == nil` guard
of `ProcessInput` is dropped (a provider is always supplied here). -/

structure ChatResponse where
  content : String
  toolCalls : List ToolCall
  totalTokens : Int
  latency : Int

structure OrchestratorResponse where
  narrative : String
  events : List Event
  tokensUsed : Int
  latencyMs : Int
  error : Option String

def GameSession.addUserMessage (s : GameSession) (content : String) :
    GameSession :=
  { s with conversation := s.conversation.add { role := .user, content := content } }

def GameSession.addAssistantMessage (s : GameSession) (content : String) :
    GameSession :=
  { s with conversation :=
      s.conversation.add { role := .assistant, content := content } }

/-- The inner `for _, tc := range resp.ToolCalls` loop of `ProcessInput`:
execute each call against the session; a failed call contributes an error
event to the orchestrator response (the tool message appended to the
outgoing request list is part of the untracked request payload). -/
def execRound (acc : GameSession × List Event) (tcs : List ToolCall) :
    GameSession × List Event :=
  tcs.foldl
    (fun acc tc =>
      let r := Execute acc.1 tc
      (r.1, if r.2.error ≠ "" then acc.2 ++ [Event.error r.2.error] else acc.2))
    acc

def maxToolIterations : Nat := 5

/-- The bounded request/tool-execute loop of `ProcessInput`, with the Go
loop counter split into the current round index and the remaining fuel.
Note that on a backend failure the accumulated token/latency totals are
dropped (the Go code only writes them into the response on the other two
exits). -/
def processIters (provider : Nat → Except String ChatResponse) :
    Nat → Nat → GameSession → List Event → Int → Int →
    OrchestratorResponse × GameSession
  | _, 0, s, events, totalTokens, totalLatency =>
    ({ narrative := "", events := events, tokensUsed := totalTokens,
       latencyMs := totalLatency,
       error := some "maximum tool iterations reached" }, s)
  | iter, fuel + 1, s, events, totalTokens, totalLatency =>
    match provider iter with
    | .error e =>
      ({ narrative := "", events := events, tokensUsed := 0, latencyMs := 0,
         error := some ("AI request failed: " ++ e) }, s)
    | .ok resp =>
      let totalTokens2 := totalTokens + resp.totalTokens
      let totalLatency2 := totalLatency + resp.latency
      if resp.toolCalls.isEmpty then
        ({ narrative := resp.content, events := events,
           tokensUsed := totalTokens2, latencyMs := totalLatency2,
           error := none },
         ((s.addAssistantMessage resp.content)).MarkModified)
      else
        let acc := execRound (s, events) resp.toolCalls
        processIters provider (iter + 1) fuel acc.1 acc.2 totalTokens2
          totalLatency2

/-- Go `Orchestrator.ProcessInput`: append the user message, then loop. -/
def ProcessInput (provider : Nat → Except String ChatResponse)
    (s : GameSession) (input : String) :
    OrchestratorResponse × GameSession :=
  processIters provider 0 maxToolIterations (s.addUserMessage input) [] 0 0

/-! ## Reference definitions used only to state the theorems -/

/-- The (count, sides, modifier) triple of a successful parse. -/
def parseTriple (s : String) : Option (Int × Int × Int) :=
  match ParseDice s with
  | .ok dr => some (dr.numDice, dr.diceSides, dr.modifier)
  | .error _ => none

/-- The single d20 value drawn by `RollD20` at a given generator state. -/
def d20Val (tape : Nat → Nat) (pos : Nat) : Int :=
  Int.ofNat (tape pos % 20) + 1

/-- State reached by executing a round's tool calls in order. -/
def execCallsState (s : GameSession) (tcs : List ToolCall) : GameSession :=
  tcs.foldl (fun st tc => (Execute st tc).1) s

/-- The byte content of the modifier segment of the dice grammar. -/
def msegList : Option (Char × List Char) → List Char
  | none => []
  | some (sign, ds) => sign :: ds

/-- The spec grammar, stated in the spec's own words: the (already trimmed
and case-folded) string decomposes as `[count]d<sides>[+|-modifier]` where
count is a digit run defaulting to 1 when omitted, sides is a nonempty digit
run, the optional modifier is a sign followed by a nonempty digit run, and
count lies in [1,100] and sides in [1,1000]. -/
def specDiceGrammar (cs : List Char) (count sides : Nat) (modifier : Int) :
    Prop :=
  ∃ cnt sds mseg, cs = cnt ++ 'd' :: sds ++ mseg
    ∧ (∀ c ∈ cnt, c.isDigit)
    ∧ (cnt = [] → count = 1) ∧ (cnt ≠ [] → count = digitsToNat cnt)
    ∧ sds ≠ [] ∧ (∀ c ∈ sds, c.isDigit) ∧ sides = digitsToNat sds
    ∧ ((mseg = [] ∧ modifier = 0) ∨
       (∃ sign ds, mseg = sign :: ds ∧ (sign = '+' ∨ sign = '-') ∧ ds ≠ []
         ∧ (∀ c ∈ ds, c.isDigit)
         ∧ modifier = (if sign = '-' then -(digitsToNat ds : Int)
                       else (digitsToNat ds : Int))))
    ∧ 1 ≤ count ∧ count ≤ 100 ∧ 1 ≤ sides ∧ sides ≤ 1000

/-- A default character (the claims are stated over arbitrary sessions;
this one instantiates witnesses and counterexamples). -/
def emptyChar : Character :=
  { abilities := ⟨10, 10, 10, 10, 10, 10⟩, maxHP := 10, currentHP := 10,
    tempHP := 0, proficiencyBonus := 2, skills := [], inventory := [],
    conditions := [], gold := 0, xp := 0 }

def baseSession : GameSession :=
  { character := emptyChar,
    world := { currentLocation := { name := "Unknown", description := "",
                                    exits := [] }, quests := [] },
    conversation := { messages := [], maxSize := 50 },
    eventLog := { events := [], maxSize := 100 },
    isModified := false, rngTape := fun _ => 0, rngPos := 0 }

/-- Character used in witnesses: proficient Stealth, DEX 14. -/
def stealthChar : Character :=
  { emptyChar with
    abilities := ⟨10, 14, 10, 10, 10, 10⟩,
    skills := [{ name := "Stealth", ability := .DEX, proficient := true,
                 expert := false }] }

/-- Session used in witnesses and counterexamples: two ropes in inventory. -/
def ropeSession : GameSession :=
  { baseSession with
    character := { emptyChar with
      inventory := [{ name := "rope", quantity := 2, equipped := false }] } }

/-- Session used in the update_hp witness: 8/10 HP plus 3 temp HP. -/
def tempHPSession : GameSession :=
  { baseSession with
    character := { emptyChar with currentHP := 8, maxHP := 10, tempHP := 3 } }

/-! ## Helper lemmas -/

theorem tdiv_two_eq (t : Int) (h : 0 ≤ t ∨ t % 2 = 0) :
    Int.tdiv t 2 = t / 2 := by
  cases t with
  | ofNat m => simp [Int.tdiv]
  | negSucc m =>
    simp only [Int.tdiv, Int.ofNat_eq_coe, Nat.succ_eq_add_one]
    rw [Int.negSucc_eq] at *
    push_cast
    omega

theorem skillBonusList_of_findSkill_some (ab : AbilityScores) (pb : Int)
    (skills : List Skill) (n : String) (sk : Skill)
    (h : findSkill skills n = some sk) :
    skillBonusList ab pb skills n =
      Modifier (ab.get sk.ability) +
        (if sk.expert then pb * 2 else if sk.proficient then pb else 0) := by
  induction skills with
  | nil => simp [findSkill] at h
  | cons hd tl ih =>
    by_cases hn : hd.name = n
    · simp only [findSkill, if_pos hn, Option.some.injEq] at h
      subst h
      simp only [skillBonusList, if_pos hn]
      split_ifs <;> omega
    · simp only [findSkill, if_neg hn] at h
      simp only [skillBonusList, if_neg hn]
      exact ih h

theorem skillBonusList_of_findSkill_none (ab : AbilityScores) (pb : Int)
    (skills : List Skill) (n : String) (h : findSkill skills n = none) :
    skillBonusList ab pb skills n = 0 := by
  induction skills with
  | nil => rfl
  | cons hd tl ih =>
    by_cases hn : hd.name = n
    · simp [findSkill, hn] at h
    · simp only [findSkill, if_neg hn] at h
      simp only [skillBonusList, if_neg hn]
      exact ih h

theorem RollD20At_eq (tape : Nat → Nat) (pos : Nat) :
    RollD20At tape pos =
      { notationStr := "1d20", numDice := 1, diceSides := 20, modifier := 0,
        rolls := [d20Val tape pos], total := d20Val tape pos } := by
  simp [RollD20At, rollWith, d20Val, List.range_succ]

/-! ## C1 -/

/-- C1: the claim asserts the floor modifier `floor((score-10)/2)`; the code
divides with Go semantics (truncation toward zero), which differs from the
floor at score 9 (`Modifier 9 = 0`, floor gives `-1`).  `/` on `Int` below
is mathematical floor division (the divisor is positive). -/
theorem modifier_not_floor_at_9 : Modifier 9 ≠ (9 - 10) / 2 := by decide

/-- C1 (amended): the modifier used by skill checks and saving throws is
`(score-10)/2` with Go truncation toward zero; it agrees with the claimed
floor `(score-10)/2` whenever the score is at least 10 or the difference is
even (in particular on every even score).  For every skill in the
character's list (first name match wins), the skill-check bonus is that
modifier plus `2×proficiencyBonus` when expert, plus `proficiencyBonus`
when merely proficient, and plus 0 otherwise (an absent skill gives bonus
0), and the saving-throw handler records a bonus that is exactly the raw
ability modifier with no proficiency added. -/
theorem skill_and_save_bonus_spec :
    (∀ score : Int, Modifier score = Int.tdiv (score - 10) 2)
  ∧ (∀ score : Int, (10 ≤ score ∨ (score - 10) % 2 = 0) →
      Modifier score = (score - 10) / 2)
  ∧ (∀ (c : Character) (n : String) (sk : Skill),
      findSkill c.skills n = some sk →
      c.SkillBonus n =
        Modifier (c.abilities.get sk.ability) +
          (if sk.expert then c.proficiencyBonus * 2
           else if sk.proficient then c.proficiencyBonus else 0))
  ∧ (∀ (c : Character) (n : String),
      findSkill c.skills n = none → c.SkillBonus n = 0)
  ∧ (∀ (s : GameSession) (id astr : String) (args : List (String × JValue))
       (d : Int) (ab : Ability),
      argStr args "ability" = some astr →
      argNum args "dc" = some d →
      abilityOfString (toUpperStr astr) = some ab →
      (savingThrowTool s id args).1.eventLog =
        s.eventLog.add
          (.savingThrow (toUpperStr astr) d (d20Val s.rngTape s.rngPos)
            (Modifier (s.character.abilities.get ab))
            (decide (d ≤ d20Val s.rngTape s.rngPos +
              Modifier (s.character.abilities.get ab))))) := by
  refine ⟨fun _ => rfl, ?_, ?_, ?_, ?_⟩
  · intro score h
    exact tdiv_two_eq _ (by omega)
  · intro c n sk h
    exact skillBonusList_of_findSkill_some _ _ _ _ _ h
  · intro c n h
    exact skillBonusList_of_findSkill_none _ _ _ _ h
  · intro s id astr args d ab h1 h2 h3
    simp only [savingThrowTool, h1, h2, h3, RollD20At_eq,
      GameSession.addEvent, List.headD]

/-- C1 witness: floor agreement at score 15, and the proficient Stealth
(DEX 14, proficiency 2) bonus. -/
theorem skill_and_save_bonus_spec_witness :
    Modifier 15 = (15 - 10) / 2 ∧
    Character.SkillBonus stealthChar "Stealth" = Modifier 14 + 2 := by
  constructor
  · exact skill_and_save_bonus_spec.2.1 15 (by decide)
  · have h := skill_and_save_bonus_spec.2.2.1 stealthChar "Stealth"
      { name := "Stealth", ability := .DEX, proficient := true,
        expert := false } (by rfl)
    simpa [stealthChar, emptyChar, AbilityScores.get] using h

/-! ## C6 -/

/-- C6: `update_hp` keeps current HP within [0, max HP] for every delta when
it starts there; a negative delta is absorbed by positive temp HP first and
only the remainder reduces current HP (floored at 0); a positive delta
heals, capped at max HP; max HP itself never changes. -/
theorem update_hp_spec (s : GameSession) (id : String)
    (args : List (String × JValue)) (d : Int)
    (hd : argNum args "delta" = some d)
    (h0 : 0 ≤ s.character.currentHP)
    (h1 : s.character.currentHP ≤ s.character.maxHP)
    (c2 : Character)
    (hc2 : c2 = (Execute s { id := id, name := "update_hp",
                             args := some args }).1.character) :
    c2.maxHP = s.character.maxHP
  ∧ 0 ≤ c2.currentHP
  ∧ c2.currentHP ≤ c2.maxHP
  ∧ (d < 0 → 0 < s.character.tempHP → -d ≤ s.character.tempHP →
      c2.currentHP = s.character.currentHP ∧
      c2.tempHP = s.character.tempHP + d)
  ∧ (d < 0 → 0 < s.character.tempHP → s.character.tempHP < -d →
      c2.tempHP = 0 ∧
      c2.currentHP = max 0 (s.character.currentHP + d + s.character.tempHP))
  ∧ (d < 0 → s.character.tempHP ≤ 0 →
      c2.tempHP = s.character.tempHP ∧
      c2.currentHP = max 0 (s.character.currentHP + d))
  ∧ (0 ≤ d →
      c2.tempHP = s.character.tempHP ∧
      c2.currentHP = min s.character.maxHP (s.character.currentHP + d)) := by
  subst hc2
  have he : (Execute s { id := id, name := "update_hp",
                         args := some args }).1.character =
      (if d < 0 then s.character.TakeDamage (-d) else s.character.Heal d) := by
    simp only [Execute, updateHPTool, hd, GameSession.MarkModified,
      GameSession.addEvent]
  rw [he]
  unfold Character.TakeDamage Character.Heal
  split_ifs <;> dsimp only <;>
    (refine ⟨rfl, ?_, ?_, ?_, ?_, ?_, ?_⟩ <;> (intros; omega))

/-- C6 witness: 8/10 HP with 3 temp HP taking 7 damage ends at 4/10 with
temp HP exhausted. -/
theorem update_hp_spec_witness :
    ((Execute tempHPSession { id := "t4", name := "update_hp", args := some [("delta", .jnum (-7)), ("reason", .jstr "trap")] }).1.character).tempHP = 0
  ∧ ((Execute tempHPSession { id := "t4", name := "update_hp", args := some [("delta", .jnum (-7)), ("reason", .jstr "trap")] }).1.character).currentHP =
      max 0 (tempHPSession.character.currentHP + (-7) +
        tempHPSession.character.tempHP) := by
  have h := update_hp_spec tempHPSession "t4"
    [("delta", .jnum (-7)), ("reason", .jstr "trap")] (-7) rfl
    (by decide) (by decide) _ rfl
  exact h.2.2.2.2.1 (by decide) (by decide) (by decide)

/-! ## C2 -/

theorem removeItemFromInv_absent (inv : List InventoryItem) (nm : String)
    (q : Int) (h : ∀ x ∈ inv, x.name ≠ nm) :
    removeItemFromInv inv nm q = none := by
  induction inv with
  | nil => rfl
  | cons hd tl ih =>
    have hhd : hd.name ≠ nm := h hd (by simp)
    simp only [removeItemFromInv, if_neg hhd]
    rw [ih (fun x hx => h x (by simp [hx]))]

theorem removeItemFromInv_found (pre : List InventoryItem)
    (it : InventoryItem) (post : List InventoryItem) (nm : String) (q : Int)
    (hpre : ∀ x ∈ pre, x.name ≠ nm) (hit : it.name = nm) :
    removeItemFromInv (pre ++ it :: post) nm q =
      some (if it.quantity ≤ q then pre ++ post
            else pre ++ { it with quantity := it.quantity - q } :: post) := by
  induction pre with
  | nil => simp [removeItemFromInv, hit]
  | cons hd tl ih =>
    have hhd : hd.name ≠ nm := hpre hd (by simp)
    have ih2 := ih (fun x hx => hpre x (by simp [hx]))
    simp only [List.cons_append, removeItemFromInv, if_neg hhd,
      List.append_eq]
    rw [ih2]
    split_ifs <;> simp

/-- C2 counterexample: with a stack of 2 ropes, removing 5 does not fail —
it deletes the whole stack and reports success. -/
theorem remove_item_insufficient_succeeds :
    (Execute ropeSession { id := "t1", name := "remove_item", args := some [("item", .jstr "rope"), ("quantity", .jnum 5)] }).2.error = ""
  ∧ (Execute ropeSession { id := "t1", name := "remove_item", args := some [("item", .jstr "rope"), ("quantity", .jnum 5)] }).1.character.inventory = [] :=
  ⟨rfl, rfl⟩

/-- C2 (amended): when the named item is absent, `remove_item` returns an
error outcome and leaves the whole session (in particular the inventory)
unchanged; when the item is present the call always succeeds: the first
matching stack is deleted outright when the requested quantity is at least
the stack quantity, and decremented by the requested quantity otherwise. -/
theorem remove_item_spec (s : GameSession) (id item : String) (q : Int)
    (args : List (String × JValue))
    (hitem : argStr args "item" = some item)
    (hq : argNum args "quantity" = some q) :
    ((∀ x ∈ s.character.inventory, x.name ≠ item) →
      (Execute s { id := id, name := "remove_item", args := some args }).2.error =
          ("Item \x27" ++ item ++ "\x27 not found in inventory")
      ∧ (Execute s { id := id, name := "remove_item", args := some args }).1 = s)
  ∧ (∀ pre it post, s.character.inventory = pre ++ it :: post →
      (∀ x ∈ pre, x.name ≠ item) → it.name = item →
      (Execute s { id := id, name := "remove_item", args := some args }).2.error = ""
      ∧ (Execute s { id := id, name := "remove_item", args := some args }).1.character.inventory =
          (if it.quantity ≤ q then pre ++ post
           else pre ++ { it with quantity := it.quantity - q } :: post)) := by
  have hdisp : Execute s { id := id, name := "remove_item", args := some args }
      = removeItemTool s id args := rfl
  constructor
  · intro habs
    have hnone := removeItemFromInv_absent s.character.inventory item q habs
    rw [hdisp]
    simp only [removeItemTool, hitem, hq, Character.RemoveItem, hnone]
    exact ⟨by trivial, by trivial⟩
  · intro pre it post hdec hpre hit
    have hsome := removeItemFromInv_found pre it post item q hpre hit
    rw [hdisp]
    rw [← hdec] at hsome
    simp only [removeItemTool, hitem, hq, Character.RemoveItem, hsome,
      GameSession.MarkModified, GameSession.addEvent]
    exact ⟨by trivial, by trivial⟩

/-- C2 witness: removing 1 rope from a stack of 2 succeeds and leaves a
stack of 1. -/
theorem remove_item_spec_witness :
    (Execute ropeSession { id := "t1", name := "remove_item", args := some [("item", .jstr "rope"), ("quantity", .jnum 1)] }).2.error = ""
  ∧ (Execute ropeSession { id := "t1", name := "remove_item", args := some [("item", .jstr "rope"), ("quantity", .jnum 1)] }).1.character.inventory =
      [{ name := "rope", quantity := 1, equipped := false }] := by
  have h := (remove_item_spec ropeSession "t1" "rope" 1
      [("item", .jstr "rope"), ("quantity", .jnum 1)] rfl rfl).2
    [] { name := "rope", quantity := 2, equipped := false } [] rfl
    (by simp) rfl
  refine ⟨h.1, ?_⟩
  have h2 := h.2
  norm_num at h2
  exact h2

/-! ## C9 -/

/-- C9 counterexample: a `set_location` call whose arguments lack the
description field does not produce an error — the location is replaced,
with an empty description. -/
theorem set_location_missing_description_succeeds :
    (Execute baseSession { id := "t2", name := "set_location", args := some [("name", .jstr "Cave")] }).2.error = ""
  ∧ (Execute baseSession { id := "t2", name := "set_location", args := some [("name", .jstr "Cave")] }).1.world.currentLocation =
      { name := "Cave", description := "", exits := [] } :=
  ⟨rfl, rfl⟩

/-- C9 (amended): only a missing (or non-string) name argument makes
`set_location` return an error outcome citing that field and leave the
session unchanged; a missing description is accepted — the location is
replaced, the description defaulting to the empty string and the exits to
the string elements of the optional exits array. -/
theorem set_location_spec (s : GameSession) (id : String)
    (args : List (String × JValue)) :
    (argStr args "name" = none →
      (Execute s { id := id, name := "set_location", args := some args }).2.error =
          "Missing or invalid \x27name\x27 parameter"
      ∧ (Execute s { id := id, name := "set_location", args := some args }).1 = s)
  ∧ (∀ nm, argStr args "name" = some nm →
      (Execute s { id := id, name := "set_location", args := some args }).2.error = ""
      ∧ (Execute s { id := id, name := "set_location", args := some args }).1.world.currentLocation =
          { name := nm, description := argStrD args "description",
            exits := decodeExits args }) := by
  have hdisp : Execute s { id := id, name := "set_location", args := some args }
      = setLocationTool s id args := rfl
  constructor
  · intro h
    rw [hdisp]
    simp only [setLocationTool, h]
    exact ⟨by trivial, by trivial⟩
  · intro nm h
    rw [hdisp]
    simp only [setLocationTool, h, GameSession.MarkModified,
      GameSession.addEvent, WorldState.SetLocation]
    exact ⟨by trivial, by trivial⟩

/-- C9 witness: with name, description and exits supplied the location is
replaced accordingly. -/
theorem set_location_spec_witness :
    (Execute baseSession { id := "t2", name := "set_location", args := some [("name", .jstr "Cave"), ("description", .jstr "Dark"), ("exits", .jarr [.jstr "north"])] }).2.error = ""
  ∧ (Execute baseSession { id := "t2", name := "set_location", args := some [("name", .jstr "Cave"), ("description", .jstr "Dark"), ("exits", .jarr [.jstr "north"])] }).1.world.currentLocation =
      { name := "Cave", description := "Dark", exits := ["north"] } := by
  have h := (set_location_spec baseSession "t2"
      [("name", .jstr "Cave"), ("description", .jstr "Dark"),
       ("exits", .jarr [.jstr "north"])]).2 "Cave" rfl
  exact ⟨h.1, by simpa using h.2⟩

/-! ## C10 -/

theorem addItemToInv_absent (inv : List InventoryItem) (item : InventoryItem)
    (h : ∀ x ∈ inv, x.name ≠ item.name) :
    addItemToInv inv item = inv ++ [item] := by
  induction inv with
  | nil => rfl
  | cons hd tl ih =>
    have hhd : hd.name ≠ item.name := h hd (by simp)
    simp only [addItemToInv, if_neg hhd, List.cons_append]
    rw [ih (fun x hx => h x (by simp [hx]))]

theorem addItemToInv_found (pre : List InventoryItem) (it : InventoryItem)
    (post : List InventoryItem) (item : InventoryItem)
    (hpre : ∀ x ∈ pre, x.name ≠ item.name) (hit : it.name = item.name) :
    addItemToInv (pre ++ it :: post) item =
      pre ++ { it with quantity := it.quantity + item.quantity } :: post := by
  induction pre with
  | nil => simp [addItemToInv, hit]
  | cons hd tl ih =>
    have hhd : hd.name ≠ item.name := hpre hd (by simp)
    simp only [List.cons_append, addItemToInv, if_neg hhd, List.append_eq]
    rw [ih (fun x hx => hpre x (by simp [hx]))]

/-- C10: `add_item` accepts any numeric quantity — zero and negative
included — without validation and succeeds, merging the quantity into the
first stack of the same name or appending a new stack (so a stack can reach
a zero or negative quantity, as the witness shows); only a missing or
non-string item argument yields an error outcome, which leaves the session
unchanged. -/
theorem add_item_spec (s : GameSession) (id : String)
    (args : List (String × JValue)) :
    (argStr args "item" = none →
      (Execute s { id := id, name := "add_item", args := some args }).2.error =
          "Missing or invalid \x27item\x27 parameter"
      ∧ (Execute s { id := id, name := "add_item", args := some args }).1 = s)
  ∧ (∀ item q, argStr args "item" = some item → argNum args "quantity" = some q →
      (Execute s { id := id, name := "add_item", args := some args }).2.error = ""
      ∧ ((∀ x ∈ s.character.inventory, x.name ≠ item) →
          (Execute s { id := id, name := "add_item", args := some args }).1.character.inventory =
            s.character.inventory ++
              [{ name := item, quantity := q, equipped := false }])
      ∧ (∀ pre it post, s.character.inventory = pre ++ it :: post →
          (∀ x ∈ pre, x.name ≠ item) → it.name = item →
          (Execute s { id := id, name := "add_item", args := some args }).1.character.inventory =
            pre ++ { it with quantity := it.quantity + q } :: post)) := by
  have hdisp : Execute s { id := id, name := "add_item", args := some args }
      = addItemTool s id args := rfl
  constructor
  · intro h
    rw [hdisp]
    simp only [addItemTool, h]
    exact ⟨by trivial, by trivial⟩
  · intro item q hitem hq
    rw [hdisp]
    simp only [addItemTool, hitem, hq, Character.AddItem,
      GameSession.MarkModified, GameSession.addEvent]
    refine ⟨by trivial, ?_, ?_⟩
    · intro habs
      exact addItemToInv_absent s.character.inventory _ habs
    · intro pre it post hdec hpre hit
      rw [hdec]
      exact addItemToInv_found pre it post _ hpre hit

/-- C10 witness: adding a numeric quantity of −5 ropes to a stack of 2
succeeds and drives the stack quantity to −3. -/
theorem add_item_spec_witness :
    (Execute ropeSession { id := "t3", name := "add_item", args := some [("item", .jstr "rope"), ("quantity", .jnum (-5))] }).2.error = ""
  ∧ (Execute ropeSession { id := "t3", name := "add_item", args := some [("item", .jstr "rope"), ("quantity", .jnum (-5))] }).1.character.inventory =
      [{ name := "rope", quantity := -3, equipped := false }] := by
  have h := (add_item_spec ropeSession "t3"
      [("item", .jstr "rope"), ("quantity", .jnum (-5))]).2 "rope" (-5)
      rfl rfl
  refine ⟨h.1, ?_⟩
  have h2 := h.2.2 [] { name := "rope", quantity := 2, equipped := false } []
    rfl (by simp) rfl
  norm_num at h2
  exact h2

/-! ## C8 -/

theorem dropLowest4 (v0 v1 v2 v3 : Int) (k : Nat)
    (hk : k = goMinIdx [v0, v1, v2, v3]) :
    k < 4
  ∧ ([v0, v1, v2, v3].getD k 0 = v0 ∨ [v0, v1, v2, v3].getD k 0 = v1 ∨
     [v0, v1, v2, v3].getD k 0 = v2 ∨ [v0, v1, v2, v3].getD k 0 = v3)
  ∧ (∀ j < 4, [v0, v1, v2, v3].getD k 0 ≤ [v0, v1, v2, v3].getD j 0)
  ∧ (∀ j < k, [v0, v1, v2, v3].getD k 0 < [v0, v1, v2, v3].getD j 0)
  ∧ ([v0, v1, v2, v3].eraseIdx k).length = 3
  ∧ ([v0, v1, v2, v3].eraseIdx k).sum + [v0, v1, v2, v3].getD k 0 =
      v0 + v1 + v2 + v3
  ∧ (([v0, v1, v2, v3].enum.filter (fun p => p.1 ≠ k)).map (fun p => p.2) =
      [v0, v1, v2, v3].eraseIdx k) := by
  have hg : goMinIdx [v0, v1, v2, v3] =
      (if v3 < [v0, v1, v2, v3].getD
          (if v2 < [v0, v1, v2, v3].getD
              (if v1 < v0 then 1 else 0) 0 then 2
           else if v1 < v0 then 1 else 0) 0 then 3
       else if v2 < [v0, v1, v2, v3].getD
          (if v1 < v0 then 1 else 0) 0 then 2
       else if v1 < v0 then 1 else 0) := by
    simp [goMinIdx, show List.range 4 = [0, 1, 2, 3] from rfl, List.foldl,
      List.getD]
  rw [hg] at hk
  by_cases h1 : v1 < v0 <;> simp only [h1, if_true, if_false, List.getD,
      List.getD_cons_zero, List.getD_cons_succ, if_pos, if_neg] at hk <;>
    split_ifs at hk <;> subst hk <;>
    refine ⟨by norm_num, by simp [List.getD], ?_, ?_, by simp,
      by simp [List.getD]; try ring_nf; try omega
      , by simp [List.enum, List.enumFrom]⟩ <;>
    · intro j hj
      interval_cases j <;> simp_all [List.getD] <;> omega

/-- C8: `RollAbilityScore` draws four six-sided dice and drops exactly one —
the die at the first minimal index in roll order (it is no larger than every
die and strictly smaller than every earlier die) — keeping the other three
in order; the total is the sum of the three kept dice and always lies in
[3,18]. -/
theorem roll_ability_score_spec (tape : Nat → Nat) (rolls : List Int)
    (k : Nat)
    (hrolls : rolls =
      (List.range 4).map (fun i => (Int.ofNat (tape i % 6)) + 1))
    (hk : k = goMinIdx rolls) :
    (RollAbilityScore tape).rolls = rolls.eraseIdx k
  ∧ (RollAbilityScore tape).rolls.length = 3
  ∧ (RollAbilityScore tape).total = (RollAbilityScore tape).rolls.sum
  ∧ 3 ≤ (RollAbilityScore tape).total
  ∧ (RollAbilityScore tape).total ≤ 18
  ∧ k < 4
  ∧ (∀ j < 4, rolls.getD k 0 ≤ rolls.getD j 0)
  ∧ (∀ j < k, rolls.getD k 0 < rolls.getD j 0) := by
  have hlist : (List.range 4).map (fun i => (Int.ofNat (tape i % 6)) + 1) =
      [Int.ofNat (tape 0 % 6) + 1, Int.ofNat (tape 1 % 6) + 1,
       Int.ofNat (tape 2 % 6) + 1, Int.ofNat (tape 3 % 6) + 1] := rfl
  subst hrolls
  rw [hlist] at hk ⊢
  obtain ⟨hk4, hmem, hle, hlt, hlen, hsum, hkept⟩ :=
    dropLowest4 _ _ _ _ k hk
  have hRolls : (RollAbilityScore tape).rolls =
      [Int.ofNat (tape 0 % 6) + 1, Int.ofNat (tape 1 % 6) + 1,
       Int.ofNat (tape 2 % 6) + 1, Int.ofNat (tape 3 % 6) + 1].eraseIdx k := by
    simp only [RollAbilityScore]
    rw [hlist, ← hk]
    exact hkept
  have hTotal : (RollAbilityScore tape).total =
      (RollAbilityScore tape).rolls.sum := rfl
  have hm0 : tape 0 % 6 < 6 := Nat.mod_lt _ (by norm_num)
  have hm1 : tape 1 % 6 < 6 := Nat.mod_lt _ (by norm_num)
  have hm2 : tape 2 % 6 < 6 := Nat.mod_lt _ (by norm_num)
  have hm3 : tape 3 % 6 < 6 := Nat.mod_lt _ (by norm_num)
  refine ⟨hRolls, by rw [hRolls]; exact hlen, hTotal, ?_, ?_, hk4, hle, hlt⟩
  · rw [hTotal, hRolls]
    simp only [Int.ofNat_eq_coe] at hsum hmem ⊢
    rcases hmem with h | h | h | h <;> omega
  · rw [hTotal, hRolls]
    simp only [Int.ofNat_eq_coe] at hsum hmem ⊢
    rcases hmem with h | h | h | h <;> omega

/-- C8 witness: with the tape 0,1,2,3 the four dice are 1,2,3,4; the single
lowest (the 1) is dropped and the kept dice are 2,3,4. -/
theorem roll_ability_score_spec_witness :
    (RollAbilityScore (fun i => i)).rolls = [2, 3, 4]
  ∧ 3 ≤ (RollAbilityScore (fun i => i)).total
  ∧ (RollAbilityScore (fun i => i)).total ≤ 18 := by
  have h := roll_ability_score_spec (fun i => i) _ _ rfl rfl
  refine ⟨?_, h.2.2.2.1, h.2.2.2.2.1⟩
  have h1 := h.1
  rw [h1]
  rfl

/-! ## C5 -/

theorem ParseDice_ok_bounds (s : String) (dr : DiceRoll)
    (h : ParseDice s = .ok dr) :
    1 ≤ dr.numDice ∧ dr.numDice ≤ 100 ∧ 1 ≤ dr.diceSides ∧
      dr.diceSides ≤ 1000 ∧ dr.rolls = [] := by
  unfold ParseDice at h
  simp only [] at h
  rcases hm : matchDice (List.map Char.toLower (trimList s.toList)) with
    _ | ⟨cnt, sds, mseg⟩
  · rw [hm] at h
    exact Except.noConfusion h
  · rw [hm] at h
    simp only at h
    split_ifs at h
    all_goals first
      | exact Except.noConfusion h
      | (injection h with h3
         subst h3
         push_neg at *
         refine ⟨?_, ?_, ?_, ?_, rfl⟩ <;> dsimp only <;> omega)

/-- C5: executing a parsed roll spec against any random source yields
exactly `numDice` individual results, each in [1, sides]; the total is the
sum of the results plus the (signed) modifier; and re-executing overwrites
the stored results — rolling an already-rolled value gives exactly what
rolling the pristine spec gives. -/
theorem dice_roll_exec_spec (s : String) (dr : DiceRoll)
    (h : ParseDice s = .ok dr) (tape : Nat → Nat) (pos : Nat) :
    ((rollWith tape pos dr).rolls.length : Int) = dr.numDice
  ∧ (∀ x ∈ (rollWith tape pos dr).rolls, 1 ≤ x ∧ x ≤ dr.diceSides)
  ∧ (rollWith tape pos dr).total =
      (rollWith tape pos dr).rolls.sum + (rollWith tape pos dr).modifier
  ∧ (∀ tape2 pos2, rollWith tape2 pos2 (rollWith tape pos dr) =
      rollWith tape2 pos2 dr) := by
  obtain ⟨hn1, hn2, hs1, hs2, -⟩ := ParseDice_ok_bounds s dr h
  refine ⟨?_, ?_, rfl, ?_⟩
  · simp only [rollWith, List.length_map, List.length_range]
    omega
  · intro x hx
    simp only [rollWith, List.mem_map, List.mem_range] at hx
    obtain ⟨i, -, rfl⟩ := hx
    have hlt : tape (pos + i) % dr.diceSides.toNat < dr.diceSides.toNat :=
      Nat.mod_lt _ (by omega)
    simp only [Int.ofNat_eq_coe]
    omega
  · intro tape2 pos2
    simp [rollWith]

/-- C5 witness: executing the parsed "2d6+5" on the identity tape gives
exactly 2 dice and total = sum of dice + 5. -/
theorem dice_roll_exec_spec_witness :
    ((rollWith (fun i => i) 0 { notationStr := "2d6+5", numDice := 2, diceSides := 6, modifier := 5, rolls := [], total := 0 }).rolls.length : Int) = 2
  ∧ (rollWith (fun i => i) 0 { notationStr := "2d6+5", numDice := 2, diceSides := 6, modifier := 5, rolls := [], total := 0 }).total =
      (rollWith (fun i => i) 0 { notationStr := "2d6+5", numDice := 2, diceSides := 6, modifier := 5, rolls := [], total := 0 }).rolls.sum + 5 := by
  have h := dice_roll_exec_spec "2d6+5"
    { notationStr := "2d6+5", numDice := 2, diceSides := 6, modifier := 5,
      rolls := [], total := 0 } rfl (fun i => i) 0
  exact ⟨h.1, h.2.2.1⟩

/-! ## C4 -/

theorem takeWhile_append_cons (p : Char → Bool) (pre : List Char) (c : Char)
    (post : List Char) (hpre : ∀ x ∈ pre, p x = true) (hc : p c = false) :
    (pre ++ c :: post).takeWhile p = pre ∧
    (pre ++ c :: post).dropWhile p = c :: post := by
  induction pre with
  | nil => simp [List.takeWhile_cons, List.dropWhile_cons, hc]
  | cons hd tl ih =>
    have hhd : p hd = true := hpre hd (by simp)
    obtain ⟨ih1, ih2⟩ := ih (fun x hx => hpre x (by simp [hx]))
    simp [List.takeWhile_cons, List.dropWhile_cons, hhd, ih1, ih2]

theorem takeWhile_all_digits (p : Char → Bool) (l : List Char)
    (h : ∀ x ∈ l, p x = true) :
    l.takeWhile p = l ∧ l.dropWhile p = [] := by
  induction l with
  | nil => simp
  | cons hd tl ih =>
    have hhd : p hd = true := h hd (by simp)
    obtain ⟨ih1, ih2⟩ := ih (fun x hx => h x (by simp [hx]))
    simp [List.takeWhile_cons, List.dropWhile_cons, hhd, ih1, ih2]

theorem matchDice_sound (cs cnt sds : List Char)
    (mseg : Option (Char × List Char))
    (h : matchDice cs = some (cnt, sds, mseg)) :
    cs = cnt ++ 'd' :: sds ++ msegList mseg
  ∧ (∀ c ∈ cnt, c.isDigit = true)
  ∧ sds ≠ [] ∧ (∀ c ∈ sds, c.isDigit = true)
  ∧ (mseg = none ∨ ∃ sign ds, mseg = some (sign, ds) ∧
      (sign = '+' ∨ sign = '-') ∧ ds ≠ [] ∧ ∀ c ∈ ds, c.isDigit = true) := by
  have e1 := List.takeWhile_append_dropWhile Char.isDigit cs
  unfold matchDice at h
  simp only [] at h
  split at h
  rotate_left
  · exact Option.noConfusion h
  next rest heq =>
    have e2 := List.takeWhile_append_dropWhile Char.isDigit rest
    by_cases hemp : (rest.takeWhile Char.isDigit).isEmpty
    · rw [if_pos hemp] at h
      exact Option.noConfusion h
    · rw [if_neg hemp] at h
      have hsne : rest.takeWhile Char.isDigit ≠ [] := by
        simpa [List.isEmpty_iff] using hemp
      split at h
      next heq2 =>
        injection h with h2
        simp only [Prod.mk.injEq] at h2
        obtain ⟨rfl, rfl, rfl⟩ := h2
        refine ⟨?_, fun c hc => List.mem_takeWhile_imp hc, hsne,
          fun c hc => List.mem_takeWhile_imp hc, Or.inl rfl⟩
        calc cs = List.takeWhile Char.isDigit cs ++
                    List.dropWhile Char.isDigit cs := e1.symm
          _ = List.takeWhile Char.isDigit cs ++ ('d' :: rest) := by rw [heq]
          _ = List.takeWhile Char.isDigit cs ++
                ('d' :: (List.takeWhile Char.isDigit rest ++
                  List.dropWhile Char.isDigit rest)) := by rw [e2]
          _ = _ := by rw [heq2]; simp [msegList]
      next c rest2 heq2 =>
        split_ifs at h with hsign hemp2 hall
        all_goals first
          | exact Option.noConfusion h
          | (injection h with h2
             simp only [Prod.mk.injEq] at h2
             obtain ⟨rfl, rfl, rfl⟩ := h2
             refine ⟨?_, fun x hx => List.mem_takeWhile_imp hx, hsne,
               fun x hx => List.mem_takeWhile_imp hx, Or.inr ⟨c, rest2, rfl,
                 hsign, fun he => by simp [he] at hemp2, fun x hx =>
                   List.all_eq_true.mp hall x hx⟩⟩
             calc cs = List.takeWhile Char.isDigit cs ++
                         List.dropWhile Char.isDigit cs := e1.symm
               _ = List.takeWhile Char.isDigit cs ++ ('d' :: rest) := by
                     rw [heq]
               _ = List.takeWhile Char.isDigit cs ++
                     ('d' :: (List.takeWhile Char.isDigit rest ++
                       List.dropWhile Char.isDigit rest)) := by rw [e2]
               _ = _ := by rw [heq2]; simp [msegList])

theorem matchDice_complete (cnt sds : List Char)
    (mseg : Option (Char × List Char))
    (hcnt : ∀ c ∈ cnt, c.isDigit = true)
    (hsne : sds ≠ []) (hsd : ∀ c ∈ sds, c.isDigit = true)
    (hm : mseg = none ∨ ∃ sign ds, mseg = some (sign, ds) ∧
      (sign = '+' ∨ sign = '-') ∧ ds ≠ [] ∧ ∀ c ∈ ds, c.isDigit = true) :
    matchDice (cnt ++ 'd' :: (sds ++ msegList mseg)) = some (cnt, sds, mseg) := by
  have hd : Char.isDigit 'd' = false := by decide
  obtain ⟨ht, hdr⟩ := takeWhile_append_cons Char.isDigit cnt 'd'
    (sds ++ msegList mseg) hcnt hd
  unfold matchDice
  simp only []
  split
  rotate_left
  · next h2 => exact absurd hdr (h2 _)
  next rest heq =>
    rw [hdr] at heq
    injection heq with h3 h4
    subst h4
    rcases hm with rfl | ⟨sign, ds, rfl, hsign, hde, hdd⟩
    · obtain ⟨hts, htd⟩ := takeWhile_all_digits Char.isDigit sds hsd
      simp only [msegList, List.append_nil] at ht ⊢
      simp only [hts, htd, ht,
        if_neg (show ¬(sds.isEmpty = true) by
          simpa [List.isEmpty_iff] using hsne)]
    · have hsd2 : Char.isDigit sign = false := by
        rcases hsign with rfl | rfl <;> decide
      obtain ⟨ht2, hd2⟩ := takeWhile_append_cons Char.isDigit sds sign ds
        hsd hsd2
      simp only [msegList] at ht ⊢
      simp only [ht2, hd2, ht,
        if_neg (show ¬(sds.isEmpty = true) by
          simpa [List.isEmpty_iff] using hsne),
        if_pos hsign,
        if_neg (show ¬(ds.isEmpty = true) by
          simpa [List.isEmpty_iff] using hde),
        if_pos (List.all_eq_true.mpr hdd)]

/-- C4: `ParseDice` succeeds with a given (count, sides, modifier) exactly
when the trimmed, case-folded input matches `[count]d<sides>[+|-modifier]`
with count (1 when omitted) in [1,100] and sides in [1,1000]; the listed
example inputs behave as the claim states. -/
theorem parse_dice_grammar_spec :
    (∀ (s : String) (count sides : Nat) (modifier : Int),
      parseTriple s = some ((count : Int), (sides : Int), modifier) ↔
        specDiceGrammar ((trimList s.toList).map Char.toLower)
          count sides modifier)
  ∧ parseTriple "1d20" = some (1, 20, 0)
  ∧ parseTriple "d20" = some (1, 20, 0)
  ∧ parseTriple "2d6+5" = some (2, 6, 5)
  ∧ parseTriple "1d20-2" = some (1, 20, -2)
  ∧ parseTriple "" = none
  ∧ parseTriple "invalid" = none
  ∧ parseTriple "1d" = none
  ∧ parseTriple "d" = none
  ∧ parseTriple "1d0" = none := by
  refine ⟨?_, rfl, rfl, rfl, rfl, rfl, rfl, rfl, rfl, rfl⟩
  intro s count sides modifier
  constructor
  · intro h
    unfold parseTriple at h
    rcases hp : ParseDice s with e | dr
    · rw [hp] at h
      exact Option.noConfusion h
    · rw [hp] at h
      injection h with h2
      simp only [Prod.mk.injEq] at h2
      obtain ⟨hc, hsd, hmd⟩ := h2
      unfold ParseDice at hp
      simp only [] at hp
      rcases hm : matchDice (List.map Char.toLower (trimList s.toList)) with
        _ | ⟨cnt, sds, mseg⟩
      · rw [hm] at hp
        exact Except.noConfusion hp
      · rw [hm] at hp
        simp only at hp
        obtain ⟨hdec, hcnt, hsne, hsd2, hmseg⟩ := matchDice_sound _ _ _ _ hm
        set n : Int :=
          (if cnt.isEmpty = true then (1 : Int)
           else ((digitsToNat cnt : Nat) : Int)) with hn
        split_ifs at hp with hr1 hr2
        · injection hp with hp2
          subst hp2
          dsimp only at hc hsd hmd
          push_neg at hr1 hr2
          refine ⟨cnt, sds, msegList mseg, hdec, hcnt, ?_, ?_, hsne, hsd2,
            ?_, ?_, ?_, ?_, ?_, ?_⟩
          · intro hcn
            subst hcn
            simp only [List.isEmpty_nil, if_true] at hn
            omega
          · intro hcn
            rw [if_neg (by simpa [List.isEmpty_iff] using hcn)] at hn
            omega
          · omega
          · rcases hmseg with rfl | ⟨sign, ds, rfl, hsign, hde, hdd⟩
            · left
              simp only [msegList]
              simp only [] at hmd
              exact ⟨by trivial, hmd.symm⟩
            · right
              refine ⟨sign, ds, by simp [msegList], hsign, hde, hdd, ?_⟩
              simp only [] at hmd
              rw [← hmd]
          · omega
          · omega
          · omega
          · omega
  · rintro ⟨cnt, sds, mseg, hdec, hcnt, hc1, hc2, hsne, hsd2, hsides, hmod,
      hb1, hb2, hb3, hb4⟩
    have hnum : (if cnt.isEmpty then 1 else ((digitsToNat cnt : Int))) =
        (count : Int) := by
      rcases hcn : cnt with _ | _
      · subst hcn
        simp [hc1 rfl]
      · subst hcn
        rw [if_neg (by simp)]
        rw [hc2 (by simp)]
    rcases hmod with ⟨rfl, rfl⟩ | ⟨sign, ds, rfl, hsign, hde, hdd, rfl⟩
    · have hcm := matchDice_complete cnt sds none hcnt hsne hsd2 (Or.inl rfl)
      have hdec2 : (trimList s.toList).map Char.toLower =
          cnt ++ 'd' :: (sds ++ msegList none) := by
        rw [hdec]
        simp [msegList]
      unfold parseTriple ParseDice
      simp only []
      rw [hdec2, hcm]
      simp only [hnum]
      rw [if_neg (by omega), if_neg (by rw [← hsides]; omega)]
      simp only [hsides]
    · have hcm := matchDice_complete cnt sds (some (sign, ds)) hcnt hsne hsd2
        (Or.inr ⟨sign, ds, rfl, hsign, hde, hdd⟩)
      have hdec2 : (trimList s.toList).map Char.toLower =
          cnt ++ 'd' :: (sds ++ msegList (some (sign, ds))) := by
        rw [hdec]
        simp [msegList]
      unfold parseTriple ParseDice
      simp only []
      rw [hdec2, hcm]
      simp only [hnum]
      rw [if_neg (by omega), if_neg (by rw [← hsides]; omega)]
      simp only [hsides]

/-- C4 witness: "2d6+5" parses, so it matches the spec grammar with
count 2, sides 6, modifier +5. -/
theorem parse_dice_grammar_spec_witness :
    specDiceGrammar ((trimList "2d6+5".toList).map Char.toLower) 2 6 5 :=
  (parse_dice_grammar_spec.1 "2d6+5" 2 6 5).mp rfl

/-! ## Orchestrator loop lemmas (for C3 and C7) -/

theorem Execute_conversation (s : GameSession) (tc : ToolCall) :
    (Execute s tc).1.conversation = s.conversation := by
  unfold Execute rollDiceTool updateHPTool addItemTool removeItemTool
    setConditionTool updateGoldTool awardXPTool setLocationTool addQuestTool
    skillCheckTool savingThrowTool GameSession.MarkModified
    GameSession.addEvent
  repeat' split
  all_goals dsimp only
  all_goals repeat' split
  all_goals rfl

theorem execRound_fst (s : GameSession) (events : List Event)
    (tcs : List ToolCall) :
    (execRound (s, events) tcs).1 = execCallsState s tcs := by
  induction tcs generalizing s events with
  | nil => rfl
  | cons hd tl ih =>
    have h1 : execRound (s, events) (hd :: tl) =
        execRound ((Execute s hd).1,
          if (Execute s hd).2.error ≠ "" then
            events ++ [Event.error (Execute s hd).2.error]
          else events) tl := rfl
    rw [h1, ih]
    rfl

theorem execCallsState_conversation (s : GameSession) (tcs : List ToolCall) :
    (execCallsState s tcs).conversation = s.conversation := by
  induction tcs generalizing s with
  | nil => rfl
  | cons hd tl ih =>
    have h1 : execCallsState s (hd :: tl) =
        execCallsState (Execute s hd).1 tl := rfl
    rw [h1, ih, Execute_conversation]

theorem foldl_execCalls_conversation (xs : List Nat) (s : GameSession)
    (f : Nat → List ToolCall) :
    ((xs.foldl (fun st j => execCallsState st (f j)) s).conversation) =
      s.conversation := by
  induction xs generalizing s with
  | nil => rfl
  | cons hd tl ih =>
    rw [List.foldl_cons, ih, execCallsState_conversation]

theorem processIters_zero (p : Nat → Except String ChatResponse) (iter : Nat)
    (s : GameSession) (events : List Event) (tok lat : Int) :
    processIters p iter 0 s events tok lat =
      ({ narrative := "", events := events, tokensUsed := tok,
         latencyMs := lat, error := some "maximum tool iterations reached" },
       s) := rfl

theorem processIters_providerError (p : Nat → Except String ChatResponse)
    (iter fuel : Nat) (s : GameSession) (events : List Event) (tok lat : Int)
    (e : String) (h : p iter = .error e) :
    processIters p iter (fuel + 1) s events tok lat =
      ({ narrative := "", events := events, tokensUsed := 0, latencyMs := 0,
         error := some ("AI request failed: " ++ e) }, s) := by
  simp [processIters, h]

theorem processIters_success (p : Nat → Except String ChatResponse)
    (iter fuel : Nat) (s : GameSession) (events : List Event) (tok lat : Int)
    (r : ChatResponse) (h : p iter = .ok r) (he : r.toolCalls = []) :
    processIters p iter (fuel + 1) s events tok lat =
      ({ narrative := r.content, events := events,
         tokensUsed := tok + r.totalTokens, latencyMs := lat + r.latency,
         error := none }, ((s.addAssistantMessage r.content)).MarkModified) := by
  simp [processIters, h, he]

theorem processIters_step (p : Nat → Except String ChatResponse)
    (iter fuel : Nat) (s : GameSession) (events : List Event) (tok lat : Int)
    (r : ChatResponse) (h : p iter = .ok r) (hne : r.toolCalls ≠ []) :
    processIters p iter (fuel + 1) s events tok lat =
      processIters p (iter + 1) fuel (execRound (s, events) r.toolCalls).1
        (execRound (s, events) r.toolCalls).2 (tok + r.totalTokens)
        (lat + r.latency) := by
  simp only [processIters, h]
  rw [if_neg (by simpa [List.isEmpty_iff] using hne)]

theorem sum_shift (f : Nat → Int) (iter k : Nat) :
    ((List.range (k + 1)).map (fun j => f (iter + j))).sum =
      f iter + ((List.range k).map (fun j => f (iter + 1 + j))).sum := by
  rw [List.range_succ_eq_map]
  simp only [List.map_cons, List.sum_cons, Nat.add_zero, List.map_map]
  congr 1
  apply congrArg List.sum
  apply List.map_congr_left
  intro j hj
  simp only [Function.comp_apply]
  congr 1
  omega

theorem foldl_range_shift {α : Type} (g : α → Nat → α) (k : Nat) (a : α) :
    (List.range (k + 1)).foldl g a =
      (List.range k).foldl (fun st j => g st (j + 1)) (g a 0) := by
  rw [List.range_succ_eq_map]
  simp only [List.foldl_cons, List.foldl_map, Nat.succ_eq_add_one]

theorem processIters_run_success (p : Nat → Except String ChatResponse)
    (resp : Nat → ChatResponse) :
    ∀ (k fuel iter : Nat) (s : GameSession) (events : List Event)
      (tok lat : Int),
      k < fuel →
      (∀ j, j < k → p (iter + j) = .ok (resp (iter + j)) ∧
        (resp (iter + j)).toolCalls ≠ []) →
      p (iter + k) = .ok (resp (iter + k)) →
      (resp (iter + k)).toolCalls = [] →
      (processIters p iter fuel s events tok lat).1.error = none ∧
      (processIters p iter fuel s events tok lat).1.narrative =
        (resp (iter + k)).content ∧
      (processIters p iter fuel s events tok lat).1.tokensUsed =
        tok + ((List.range (k + 1)).map
          (fun j => (resp (iter + j)).totalTokens)).sum ∧
      (processIters p iter fuel s events tok lat).1.latencyMs =
        lat + ((List.range (k + 1)).map
          (fun j => (resp (iter + j)).latency)).sum := by
  intro k
  induction k with
  | zero =>
    intro fuel iter s events tok lat hk hprev hok hemp
    rcases fuel with _ | fuel2
    · exact absurd hk (by omega)
    · rw [Nat.add_zero] at hok hemp
      rw [processIters_success p iter fuel2 s events tok lat _ hok hemp]
      refine ⟨rfl, by simp, ?_, ?_⟩ <;>
        simp [show List.range 1 = [0] from rfl]
  | succ k ih =>
    intro fuel iter s events tok lat hk hprev hok hemp
    rcases fuel with _ | fuel2
    · exact absurd hk (by omega)
    · have h0 := hprev 0 (by omega)
      rw [Nat.add_zero] at h0
      rw [processIters_step p iter fuel2 s events tok lat _ h0.1 h0.2]
      have hsh : iter + 1 + k = iter + (k + 1) := by omega
      have ih2 := ih fuel2 (iter + 1)
        (execRound (s, events) (resp iter).toolCalls).1
        (execRound (s, events) (resp iter).toolCalls).2
        (tok + (resp iter).totalTokens) (lat + (resp iter).latency)
        (by omega)
        (fun j hj => by
          have hj2 := hprev (j + 1) (by omega)
          rwa [show iter + (j + 1) = iter + 1 + j by omega] at hj2)
        (by rw [hsh]; exact hok)
        (by rw [hsh]; exact hemp)
      obtain ⟨e1, e2, e3, e4⟩ := ih2
      refine ⟨e1, ?_, ?_, ?_⟩
      · rw [e2, hsh]
      · rw [e3, sum_shift (fun j => (resp j).totalTokens) iter (k + 1)]
        ring
      · rw [e4, sum_shift (fun j => (resp j).latency) iter (k + 1)]
        ring

theorem processIters_exhaust (p : Nat → Except String ChatResponse)
    (resp : Nat → ChatResponse) :
    ∀ (fuel iter : Nat) (s : GameSession) (events : List Event)
      (tok lat : Int),
      (∀ j, j < fuel → p (iter + j) = .ok (resp (iter + j)) ∧
        (resp (iter + j)).toolCalls ≠ []) →
      (processIters p iter fuel s events tok lat).1.error =
        some "maximum tool iterations reached" ∧
      (processIters p iter fuel s events tok lat).1.tokensUsed =
        tok + ((List.range fuel).map
          (fun j => (resp (iter + j)).totalTokens)).sum ∧
      (processIters p iter fuel s events tok lat).1.latencyMs =
        lat + ((List.range fuel).map
          (fun j => (resp (iter + j)).latency)).sum := by
  intro fuel
  induction fuel with
  | zero =>
    intro iter s events tok lat hall
    rw [processIters_zero]
    refine ⟨rfl, by simp, by simp⟩
  | succ fuel2 ih =>
    intro iter s events tok lat hall
    have h0 := hall 0 (by omega)
    rw [Nat.add_zero] at h0
    rw [processIters_step p iter fuel2 s events tok lat _ h0.1 h0.2]
    have ih2 := ih (iter + 1)
      (execRound (s, events) (resp iter).toolCalls).1
      (execRound (s, events) (resp iter).toolCalls).2
      (tok + (resp iter).totalTokens) (lat + (resp iter).latency)
      (fun j hj => by
        have hj2 := hall (j + 1) (by omega)
        rwa [show iter + (j + 1) = iter + 1 + j by omega] at hj2)
    obtain ⟨e1, e2, e3⟩ := ih2
    refine ⟨e1, ?_, ?_⟩
    · rw [e2, sum_shift (fun j => (resp j).totalTokens) iter fuel2]
      ring
    · rw [e3, sum_shift (fun j => (resp j).latency) iter fuel2]
      ring

theorem processIters_error_run (p : Nat → Except String ChatResponse)
    (resp : Nat → ChatResponse) (e : String) :
    ∀ (k fuel iter : Nat) (s : GameSession) (events : List Event)
      (tok lat : Int),
      k < fuel →
      (∀ j, j < k → p (iter + j) = .ok (resp (iter + j)) ∧
        (resp (iter + j)).toolCalls ≠ []) →
      p (iter + k) = .error e →
      (processIters p iter fuel s events tok lat).1.error =
        some ("AI request failed: " ++ e) ∧
      (processIters p iter fuel s events tok lat).1.tokensUsed = 0 ∧
      (processIters p iter fuel s events tok lat).1.latencyMs = 0 ∧
      (processIters p iter fuel s events tok lat).2 =
        (List.range k).foldl
          (fun st j => execCallsState st ((resp (iter + j)).toolCalls)) s := by
  intro k
  induction k with
  | zero =>
    intro fuel iter s events tok lat hk hprev herr
    rcases fuel with _ | fuel2
    · exact absurd hk (by omega)
    · rw [Nat.add_zero] at herr
      rw [processIters_providerError p iter fuel2 s events tok lat e herr]
      exact ⟨rfl, rfl, rfl, rfl⟩
  | succ k ih =>
    intro fuel iter s events tok lat hk hprev herr
    rcases fuel with _ | fuel2
    · exact absurd hk (by omega)
    · have h0 := hprev 0 (by omega)
      rw [Nat.add_zero] at h0
      rw [processIters_step p iter fuel2 s events tok lat _ h0.1 h0.2]
      have hsh : iter + 1 + k = iter + (k + 1) := by omega
      have ih2 := ih fuel2 (iter + 1)
        (execRound (s, events) (resp iter).toolCalls).1
        (execRound (s, events) (resp iter).toolCalls).2
        (tok + (resp iter).totalTokens) (lat + (resp iter).latency)
        (by omega)
        (fun j hj => by
          have hj2 := hprev (j + 1) (by omega)
          rwa [show iter + (j + 1) = iter + 1 + j by omega] at hj2)
        (by rw [hsh]; exact herr)
      obtain ⟨e1, e2, e3, e4⟩ := ih2
      refine ⟨e1, e2, e3, ?_⟩
      rw [e4, execRound_fst]
      have hfun : (fun (st : GameSession) (j : Nat) =>
          execCallsState st ((resp (iter + (j + 1))).toolCalls)) =
          (fun st j => execCallsState st ((resp (iter + 1 + j)).toolCalls)) := by
        funext st j
        have h5 : iter + (j + 1) = iter + 1 + j := by omega
        rw [h5]
      rw [foldl_range_shift
        (fun st j => execCallsState st ((resp (iter + j)).toolCalls)) k, hfun]
      rfl

theorem processIters_ext (p q : Nat → Except String ChatResponse) :
    ∀ (fuel iter : Nat) (s : GameSession) (events : List Event)
      (tok lat : Int),
      (∀ j, iter ≤ j → j < iter + fuel → p j = q j) →
      processIters p iter fuel s events tok lat =
        processIters q iter fuel s events tok lat := by
  intro fuel
  induction fuel with
  | zero => intro iter s events tok lat hag; rfl
  | succ fuel2 ih =>
    intro iter s events tok lat hag
    have hpq : p iter = q iter := hag iter (le_refl _) (by omega)
    rcases hq : p iter with e | r
    · rw [processIters_providerError p iter fuel2 s events tok lat e hq,
          processIters_providerError q iter fuel2 s events tok lat e
            (by rw [← hpq]; exact hq)]
    · by_cases hempty : r.toolCalls = []
      · rw [processIters_success p iter fuel2 s events tok lat r hq hempty,
            processIters_success q iter fuel2 s events tok lat r
              (by rw [← hpq]; exact hq) hempty]
      · rw [processIters_step p iter fuel2 s events tok lat r hq hempty,
            processIters_step q iter fuel2 s events tok lat r
              (by rw [← hpq]; exact hq) hempty]
        exact ih (iter + 1) _ _ _ _ (fun j h1 h2 => hag j (by omega) (by omega))

/-! ## C3 -/

/-- C3: `ProcessInput` consults the backend at most 5 times (its result only
depends on the provider at rounds 0..4); it returns success right after the
first response with zero tool calls — so a backend that never emits tool
calls completes in exactly one round-trip — carrying that response's
narrative and the token/latency totals accumulated over the rounds so far;
and when all 5 responses carry tool calls it returns the iteration-limit
error whose response still holds the token and latency sums over all 5
calls. -/
theorem process_input_bounded (p : Nat → Except String ChatResponse)
    (s : GameSession) (input : String) :
    (∀ q : Nat → Except String ChatResponse, (∀ i, i < 5 → p i = q i) →
      ProcessInput p s input = ProcessInput q s input)
  ∧ (∀ (resp : Nat → ChatResponse) (k : Nat), k < 5 →
      (∀ j, j < k → p j = .ok (resp j) ∧ (resp j).toolCalls ≠ []) →
      p k = .ok (resp k) → (resp k).toolCalls = [] →
      (ProcessInput p s input).1.error = none ∧
      (ProcessInput p s input).1.narrative = (resp k).content ∧
      (ProcessInput p s input).1.tokensUsed =
        ((List.range (k + 1)).map (fun j => (resp j).totalTokens)).sum ∧
      (ProcessInput p s input).1.latencyMs =
        ((List.range (k + 1)).map (fun j => (resp j).latency)).sum)
  ∧ (∀ resp : Nat → ChatResponse,
      (∀ j, j < 5 → p j = .ok (resp j) ∧ (resp j).toolCalls ≠ []) →
      (ProcessInput p s input).1.error =
        some "maximum tool iterations reached" ∧
      (ProcessInput p s input).1.tokensUsed =
        ((List.range 5).map (fun j => (resp j).totalTokens)).sum ∧
      (ProcessInput p s input).1.latencyMs =
        ((List.range 5).map (fun j => (resp j).latency)).sum) := by
  refine ⟨?_, ?_, ?_⟩
  · intro q hag
    unfold ProcessInput maxToolIterations
    exact processIters_ext p q 5 0 (s.addUserMessage input) [] 0 0
      (fun j h1 h2 => hag j (by omega))
  · intro resp k hk hprev hok hemp
    unfold ProcessInput maxToolIterations
    have h := processIters_run_success p resp k 5 0 (s.addUserMessage input)
      [] 0 0 hk
      (fun j hj => by simpa using hprev j hj)
      (by simpa using hok) (by simpa using hemp)
    simpa using h
  · intro resp hall
    unfold ProcessInput maxToolIterations
    have h := processIters_exhaust p resp 5 0 (s.addUserMessage input) [] 0 0
      (fun j hj => by simpa using hall j hj)
    simpa using h

/-- C3 witness: a backend that never emits tool calls completes in one
round-trip with its narrative and that single call's token/latency totals. -/
theorem process_input_bounded_witness :
    (ProcessInput (fun _ => .ok { content := "story", toolCalls := [], totalTokens := 7, latency := 3 }) baseSession "go").1.error = none
  ∧ (ProcessInput (fun _ => .ok { content := "story", toolCalls := [], totalTokens := 7, latency := 3 }) baseSession "go").1.narrative = "story"
  ∧ (ProcessInput (fun _ => .ok { content := "story", toolCalls := [], totalTokens := 7, latency := 3 }) baseSession "go").1.tokensUsed =
      ((List.range 1).map (fun _ => (7 : Int))).sum := by
  have h := (process_input_bounded
    (fun _ => .ok { content := "story", toolCalls := [], totalTokens := 7,
                    latency := 3 }) baseSession "go").2.1
    (fun _ => { content := "story", toolCalls := [], totalTokens := 7,
                latency := 3 }) 0
    (by omega) (fun j hj => absurd hj (by omega)) rfl rfl
  exact ⟨h.1, h.2.1, h.2.2.1⟩

/-! ## C7 -/

/-- C7: when a backend call fails, `ProcessInput` returns immediately with
the wrapped error; the user message remains appended to the conversation and
no assistant message is recorded (the conversation is exactly that of the
session after appending the user message), no tool execution is attempted
for the failing round, and the returned session state is exactly the state
after the tool executions of the earlier rounds — on a first-round failure
the whole session equals the original with only the user message appended. -/
theorem process_input_backend_failure (p : Nat → Except String ChatResponse)
    (s : GameSession) (input : String) :
    (∀ e, p 0 = .error e →
      ProcessInput p s input =
        ({ narrative := "", events := [], tokensUsed := 0, latencyMs := 0,
           error := some ("AI request failed: " ++ e) },
         s.addUserMessage input))
  ∧ (∀ (resp : Nat → ChatResponse) (k : Nat) (e : String), k < 5 →
      (∀ j, j < k → p j = .ok (resp j) ∧ (resp j).toolCalls ≠ []) →
      p k = .error e →
      (ProcessInput p s input).1.error =
        some ("AI request failed: " ++ e) ∧
      (ProcessInput p s input).2 =
        (List.range k).foldl
          (fun st j => execCallsState st ((resp j).toolCalls))
          (s.addUserMessage input) ∧
      (ProcessInput p s input).2.conversation =
        (s.addUserMessage input).conversation) := by
  constructor
  · intro e he
    unfold ProcessInput maxToolIterations
    exact processIters_providerError p 0 4 (s.addUserMessage input) [] 0 0 e he
  · intro resp k e hk hprev herr
    unfold ProcessInput maxToolIterations
    have h := processIters_error_run p resp e k 5 0 (s.addUserMessage input)
      [] 0 0 hk (fun j hj => by simpa using hprev j hj) (by simpa using herr)
    obtain ⟨h1, -, -, h4⟩ := h
    refine ⟨h1, by simpa using h4, ?_⟩
    have h5 : (processIters p 0 5 (s.addUserMessage input) [] 0 0).2.conversation =
        ((List.range k).foldl
          (fun st j => execCallsState st ((resp (0 + j)).toolCalls))
          (s.addUserMessage input)).conversation := by rw [h4]
    rw [h5, foldl_execCalls_conversation]

/-- C7 witness: a backend failing on the very first call leaves the session
exactly at "user message appended" and yields the wrapped error. -/
theorem process_input_backend_failure_witness :
    ProcessInput (fun _ => .error "boom") baseSession "hi" =
      ({ narrative := "", events := [], tokensUsed := 0, latencyMs := 0,
         error := some ("AI request failed: " ++ "boom") },
       baseSession.addUserMessage "hi") :=
  (process_input_backend_failure (fun _ => .error "boom") baseSession "hi").1
    "boom" rfl
